import Mathlib

/-!
Verification development for `cnns/train.py` of the predicting-poverty repository.

The script is embedded shallowly and functionally:

* `load_dataset` becomes a pure function returning the constructed dataset-adapter
  arguments (in construction order, as an event trace) together with an
  `Except`-value mirroring the `raise NotImplementedError` path.
* The training loop `train_model` becomes explicit state passing over `RunState`.
  The model, the loss criterion and the optimizer are parameters of the function in
  the source, so they are parameters of the embedding as well: an abstract forward
  function `List ℚ → ι → ℚ` (current parameters, one input sample, one scalar
  prediction, matching the (B,1)-shaped output of the replaced regression head),
  an abstract criterion on the batch outputs and labels, and an abstract optimizer
  that updates exactly the parameter entries it was constructed with
  (`optim.Adam(params, ...)`).  Python floats are modelled as ℚ.
* `loss.backward()` only fills gradients, which feed the optimizer update; the
  abstract optimizer update function absorbs them, as it absorbs the learning
  rate adjusted by `ReduceLROnPlateau` (`scheduler.step` touches nothing else).
* `y_pred += preds.squeeze().cpu().numpy().tolist()` is modelled exactly:
  squeezing a (1,1) tensor yields a 0-dim array whose `tolist()` is a Python
  float, and `list += float` raises `TypeError`; fallible steps return `Except`.
* `save_logs` writes files; its observable effect is modelled as appending a
  `LogEntry` recording exactly the values the source writes at that moment.
* `model.cpu()` / `.cuda()` placement round trips do not change parameter values
  and are dropped; `state_dict()` / `load_state_dict` become reading / replacing
  the parameter value vector at the value level.  The REFERENCE semantics of
  `state_dict()` on the CPU path - it returns the live parameter tensors, which
  `optimizer.step()` later mutates in place (the source has no `copy.deepcopy`)
  - is modelled separately by the heap-based `CPUState` development further
  down, which claim C4 is settled against.
-/

/-- Image transform steps built by `load_dataset` (`torchvision.transforms`). -/
inductive Transform where
  | centerCrop (size : Nat)
  | resize (size : Nat)
  | randomHorizontalFlip
  | toTensor
  | normalize (mean std : List ℚ)
deriving DecidableEq

/-- Constructor arguments of a dataset adapter (`BangladeshDataset` / `IndiaDataset`),
exactly the keyword arguments passed in `load_dataset`. -/
structure DatasetArgs where
  dataset_class : String
  csv_file : String
  root_dir : String
  label : String
  transform : List Transform
  sat_type : String
  year : Nat
  frac : ℚ
deriving DecidableEq

/-- Value computed by a successful `load_dataset` call: the two dataset adapters
(the dataloaders wrap them 1:1) and the configured batch size. -/
structure LoadedData where
  train_dataset : DatasetArgs
  val_dataset : DatasetArgs
  batch_size : Nat
deriving DecidableEq

/-- Embedding of `load_dataset`.  The first component is the trace of dataset
adapters constructed (data loading events) in order; the second is the result,
with `.error` mirroring `raise NotImplementedError("Only Bangladesh and India
supported.")`.  The `sat_type` if-else mirrors lines 28-31 of the source: any
tag other than "s1" falls into the `CenterCrop(100)` preset. -/
def load_dataset (train_csv_path val_csv_path train_data_dir val_data_dir country label : String)
    (sat_type : String) (year : Nat) (batch_size : Nat) (train_frac : ℚ) :
    List DatasetArgs × Except String LoadedData :=
  let sat_transforms : List Transform :=
    if sat_type = "s1" then [.centerCrop 300, .resize 224] else [.centerCrop 100, .resize 224]
  let train_transform : List Transform :=
    sat_transforms ++ [.randomHorizontalFlip, .toTensor,
      .normalize [485/1000, 456/1000, 406/1000] [229/1000, 224/1000, 225/1000]]
  let val_transform : List Transform :=
    sat_transforms ++ [.toTensor,
      .normalize [485/1000, 456/1000, 406/1000] [229/1000, 224/1000, 225/1000]]
  let datasetClass : Option String :=
    if country = "bangladesh" then some "BangladeshDataset"
    else if country = "india" then some "IndiaDataset"
    else none
  match datasetClass with
  | none => ([], .error "Only Bangladesh and India supported.")
  | some cls =>
    let train_dataset : DatasetArgs :=
      ⟨cls, train_csv_path, train_data_dir, label, train_transform, sat_type, year, train_frac⟩
    let val_dataset : DatasetArgs :=
      ⟨cls, val_csv_path, val_data_dir, label, val_transform, sat_type, year, train_frac⟩
    ([train_dataset, val_dataset], .ok ⟨train_dataset, val_dataset, batch_size⟩)

/-- Mini-batch produced by a dataloader: per-sample inputs and scalar labels. -/
structure Batch (ι : Type) where
  inputs : List ι
  labels : List ℚ
deriving DecidableEq

/-- Result of `preds.squeeze().cpu().numpy().tolist()` on the (B,1)-shaped output
tensor: for B = 1 squeezing removes both size-1 axes and `tolist()` yields a bare
Python float; otherwise it yields a list. -/
inductive SqueezedPreds where
  | scalar (x : ℚ)
  | plainList (xs : List ℚ)
deriving DecidableEq

def squeezeTolist : List ℚ → SqueezedPreds
  | [x] => .scalar x
  | xs => .plainList xs

/-- Embedding of `y_pred += v`: Python list `+=` iterates the right operand, so a
bare float raises `TypeError`. -/
def listIAdd (acc : List ℚ) : SqueezedPreds → Except String (List ℚ)
  | .scalar _ => .error "TypeError: float object is not iterable"
  | .plainList xs => .ok (acc ++ xs)

/-- Pointwise parameter update restricted to the index set the optimizer holds. -/
def updateAt (idxs : List Nat) (f : Nat → ℚ → ℚ) : Nat → List ℚ → List ℚ
  | _, [] => []
  | i, x :: xs => (if i ∈ idxs then f i x else x) :: updateAt idxs f (i + 1) xs

/-- Abstract optimizer (`optim.Adam(params, lr, weight_decay)`): it owns the
indices of the parameters it was constructed over, and an arbitrary update rule
(absorbing gradients, internal moments and the scheduled learning rate) that
produces the new optimizer state and a per-index new-value function. -/
structure Optimizer (σ ι : Type) where
  paramIdx : List Nat
  update : σ → List ℚ → Batch ι → σ × (Nat → ℚ → ℚ)

/-- Embedding of `optimizer.step()`: only entries whose index the optimizer owns change. -/
def optStep {σ ι : Type} (opt : Optimizer σ ι) (s : σ) (params : List ℚ) (b : Batch ι) :
    σ × List ℚ :=
  let su := opt.update s params b
  (su.1, updateAt opt.paramIdx su.2 0 params)

/-- State accumulated by one phase (`for i, data in enumerate(dataloaders[phase])`). -/
structure PhaseResult (σ : Type) where
  params : List ℚ
  optState : σ
  y_true : List ℚ
  y_pred : List ℚ
  running_loss : ℚ
deriving DecidableEq

/-- Embedding of the per-batch loop body of `train_model`, threading the mutable
state.  Mirrors the source order: collect `y_true`, forward, criterion, extend
`y_pred` (possibly raising), then `loss.backward(); optimizer.step()` only in the
train phase, then `running_loss += loss.data[0]` (the batch MEAN loss, not
scaled by the batch size). -/
def runBatches {σ ι : Type} (isTrain : Bool) (forward : List ℚ → ι → ℚ)
    (criterion : List ℚ → List ℚ → ℚ) (opt : Optimizer σ ι)
    (params : List ℚ) (optState : σ) (y_true y_pred : List ℚ) (running_loss : ℚ) :
    List (Batch ι) → Except String (PhaseResult σ)
  | [] => .ok ⟨params, optState, y_true, y_pred, running_loss⟩
  | b :: rest =>
    let y_true2 := y_true ++ b.labels
    let outputs := b.inputs.map (forward params)
    let loss := criterion outputs b.labels
    match listIAdd y_pred (squeezeTolist outputs) with
    | .error e => .error e
    | .ok y_pred2 =>
      let next := if isTrain then optStep opt optState params b else (optState, params)
      runBatches isTrain forward criterion opt next.2 next.1 y_true2 y_pred2
        (running_loss + loss) rest

/-- One full phase starting from empty accumulators. -/
def runPhase {σ ι : Type} (isTrain : Bool) (forward : List ℚ → ι → ℚ)
    (criterion : List ℚ → List ℚ → ℚ) (opt : Optimizer σ ι)
    (params : List ℚ) (optState : σ) (batches : List (Batch ι)) :
    Except String (PhaseResult σ) :=
  runBatches isTrain forward criterion opt params optState [] [] 0 batches

/-- Embedding of `nn.MSELoss()` with default mean reduction. -/
def mseLoss (outputs targets : List ℚ) : ℚ :=
  (List.zipWith (fun o t => (o - t) * (o - t)) outputs targets).sum / (outputs.length : ℚ)

/-- Embedding of `sklearn.metrics.r2_score`: 1 - ss_res/ss_tot, with the zero-variance
convention (1.0 when the residual is also zero, else 0.0). -/
def r2_score (y_true y_pred : List ℚ) : ℚ :=
  let m : ℚ := y_true.sum / (y_true.length : ℚ)
  let ss_res : ℚ := (List.zipWith (fun t p => (t - p) * (t - p)) y_true y_pred).sum
  let ss_tot : ℚ := (y_true.map (fun t => (t - m) * (t - m))).sum
  if ss_tot = 0 then (if ss_res = 0 then 1 else 0) else 1 - ss_res / ss_tot

/-- One `save_logs(epoch_no)` call, recorded as the tuple of values the source
writes at that moment: the best-so-far prediction/label arrays, the cumulative
loss and R2 histories, and `model.state_dict()` (the CURRENT model parameters). -/
structure LogEntry where
  epochTag : Option Nat
  y_pred : List ℚ
  y_true : List ℚ
  losses_train : List ℚ
  losses_val : List ℚ
  r2s_train : List ℚ
  r2s_val : List ℚ
  saved_model : List ℚ
deriving DecidableEq

/-- Mutable state of `train_model` between statements. -/
structure RunState (σ : Type) where
  params : List ℚ
  optState : σ
  best_model_wts : List ℚ
  best_r2 : Option ℚ
  best_y_pred : List ℚ
  best_y_true : List ℚ
  losses_train : List ℚ
  losses_val : List ℚ
  r2s_train : List ℚ
  r2s_val : List ℚ
  logs : List LogEntry
deriving DecidableEq

/-- Embedding of `save_logs` as a state transformer: appends one persisted checkpoint record. -/
def saveLogs {σ : Type} (st : RunState σ) (epoch_no : Option Nat) : RunState σ :=
  { st with logs := st.logs ++
      [⟨epoch_no, st.best_y_pred, st.best_y_true, st.losses_train, st.losses_val,
        st.r2s_train, st.r2s_val, st.params⟩] }

/-- Static configuration of one `train_model` call. -/
structure Cfg (ι σ : Type) where
  forward : List ℚ → ι → ℚ
  criterion : List ℚ → List ℚ → ℚ
  opt : Optimizer σ ι
  trainLoader : Nat → List (Batch ι)
  valLoader : Nat → List (Batch ι)
  trainSize : ℚ
  valSize : ℚ
  num_epochs : Nat
  verbose : Bool
  log_epoch_interval : Nat

/-- Bookkeeping at the end of the train phase: record epoch loss
(`running_loss / dataset_sizes[phase]`) and epoch R2. -/
def trainPhaseUpdate {σ ι : Type} (cfg : Cfg ι σ) (st : RunState σ) (rT : PhaseResult σ) :
    RunState σ :=
  { st with
    params := rT.params
    optState := rT.optState
    losses_train := st.losses_train ++ [rT.running_loss / cfg.trainSize]
    r2s_train := st.r2s_train ++ [r2_score rT.y_true rT.y_pred] }

/-- Bookkeeping at the end of the val phase. -/
def valPhaseUpdate {σ ι : Type} (cfg : Cfg ι σ) (st : RunState σ) (rV : PhaseResult σ) :
    RunState σ :=
  { st with
    params := rV.params
    optState := rV.optState
    losses_val := st.losses_val ++ [rV.running_loss / cfg.valSize]
    r2s_val := st.r2s_val ++ [r2_score rV.y_true rV.y_pred] }

/-- The best-checkpoint update `if epoch_r2 > best_r2: ...`, with the initial
`float("-inf")` encoded as `none`.  Here `best_model_wts = model.state_dict()`
records the current parameter VALUES: this value-level reading is what the
approved claims C3, C5 and C7 need (none of them depends on copy-vs-alias).
It does NOT capture that on the CPU path torch `state_dict()` returns the live
parameter tensors rather than a copy; that aliasing is modelled faithfully by
`epochStepCPU` below and decides claim C4. -/
def bestUpdate {σ : Type} (epoch_r2 : ℚ) (y_pred y_true : List ℚ) (st : RunState σ) :
    RunState σ :=
  match st.best_r2 with
  | none =>
    { st with
      best_r2 := some epoch_r2
      best_y_pred := y_pred
      best_y_true := y_true
      best_model_wts := st.params }
  | some b =>
    if b < epoch_r2 then
      { st with
        best_r2 := some epoch_r2
        best_y_pred := y_pred
        best_y_true := y_true
        best_model_wts := st.params }
    else st

/-- The per-phase `if verbose and epoch % log_epoch_interval == 0: save_logs(epoch)`. -/
def maybeLog {σ ι : Type} (cfg : Cfg ι σ) (epoch : Nat) (st : RunState σ) : RunState σ :=
  if cfg.verbose && (epoch % cfg.log_epoch_interval == 0) then saveLogs st (some epoch) else st

/-- One epoch of `train_model`: the train phase, then the val phase, mirroring
the statement order of the source including the per-phase periodic `save_logs`
and the best-checkpoint update (only after the val phase).
`scheduler.step(losses["val"][-1])` adjusts only the learning rate held by the optimizer,
which the abstract optimizer update already absorbs. -/
def epochStep {σ ι : Type} (cfg : Cfg ι σ) (epoch : Nat) (st : RunState σ) :
    Except String (RunState σ) :=
  match runPhase true cfg.forward cfg.criterion cfg.opt st.params st.optState
      (cfg.trainLoader epoch) with
  | .error e => .error e
  | .ok rT =>
    let st1 : RunState σ := maybeLog cfg epoch (trainPhaseUpdate cfg st rT)
    match runPhase false cfg.forward cfg.criterion cfg.opt st1.params st1.optState
        (cfg.valLoader epoch) with
    | .error e => .error e
    | .ok rV =>
      .ok (maybeLog cfg epoch
        (bestUpdate (r2_score rV.y_true rV.y_pred) rV.y_pred rV.y_true
          (valPhaseUpdate cfg st1 rV)))

/-- State at the top of `train_model`: `best_model_wts = model.state_dict()`,
`best_r2 = float("-inf")`, empty best arrays and histories. -/
def initState {σ : Type} (p : List ℚ) (s : σ) : RunState σ :=
  ⟨p, s, p, none, [], [], [], [], [], [], []⟩

/-- State after the first `k` iterations of `for epoch in range(1, num_epochs + 1)`. -/
def stateAfter {σ ι : Type} (cfg : Cfg ι σ) (st0 : RunState σ) : Nat → Except String (RunState σ)
  | 0 => .ok st0
  | k + 1 =>
    match stateAfter cfg st0 k with
    | .error e => .error e
    | .ok st => epochStep cfg (k + 1) st

/-- Embedding of `train_model`: run all epochs, then `save_logs()` (tag `none`,
writing the CURRENT `model.state_dict()`), then `model.load_state_dict(best_model_wts)`,
and return the model.  The `params` of the returned state are the parameters of
the returned model; `logs` is everything persisted. -/
def train_model {σ ι : Type} (cfg : Cfg ι σ) (init_params : List ℚ) (init_opt : σ) :
    Except String (RunState σ) :=
  match stateAfter cfg (initState init_params init_opt) cfg.num_epochs with
  | .error e => .error e
  | .ok st =>
    let st2 := saveLogs st none
    .ok { st2 with params := st2.best_model_wts }

/-- Fuel-driven batching of an ordered dataset (`DataLoader` with
`drop_last=False`): consecutive chunks of `B`, last chunk possibly smaller.
Fuel equal to the list length always suffices. -/
def chunksGo {α : Type} (B : Nat) : Nat → List α → List (List α)
  | _, [] => []
  | 0, _ :: _ => []
  | fuel + 1, x :: xs => (x :: xs.take (B - 1)) :: chunksGo B fuel (xs.drop (B - 1))

def chunks {α : Type} (B : Nat) (xs : List α) : List (List α) := chunksGo B xs.length xs

/-- The batches a dataloader yields over an ordered dataset of (input, label)
samples with batch size `B`. -/
def loaderBatches {ι : Type} (B : Nat) (dataset : List (ι × ℚ)) : List (Batch ι) :=
  (chunks B dataset).map (fun c => ⟨c.map Prod.fst, c.map Prod.snd⟩)

/-- The sequence of per-batch mean losses (`loss.data[0]` values) a phase
produces, including the parameter evolution between train batches. -/
def batchMeanLosses {σ ι : Type} (isTrain : Bool) (forward : List ℚ → ι → ℚ)
    (criterion : List ℚ → List ℚ → ℚ) (opt : Optimizer σ ι)
    (params : List ℚ) (optState : σ) : List (Batch ι) → List ℚ
  | [] => []
  | b :: rest =>
    let outputs := b.inputs.map (forward params)
    let loss := criterion outputs b.labels
    let next := if isTrain then optStep opt optState params b else (optState, params)
    loss :: batchMeanLosses isTrain forward criterion opt next.2 next.1 rest

/-- Modelled from the spec: the batch-size-weighted mean of the per-batch mean
losses, i.e. the sum over batches of (batch mean loss times batch size) divided
by the phase dataset size.  This is the quantity the claim says the recorded
epoch loss equals; it is compared against the source-derived computation. -/
def weightedBatchLossMean (lossesAndSizes : List (ℚ × Nat)) : ℚ :=
  (lossesAndSizes.map (fun p => p.1 * (p.2 : ℚ))).sum /
    (((lossesAndSizes.map Prod.snd).sum : Nat) : ℚ)

/-- Entry-point model surgery (`__main__`): the pretrained backbone parameters,
the replaced `model_conv.fc = nn.Linear(num_ftrs, 1)` head parameters, and the
fine-tune switch. -/
structure MainCfg where
  fine_tune : Bool
  backbone_init : List ℚ
  fc_init : List ℚ

/-- Flattened parameter vector of the assembled model: backbone then fc head. -/
def mainParams (m : MainCfg) : List ℚ := m.backbone_init ++ m.fc_init

/-- The `requires_grad` flags after the `__main__` setup: all backbone parameters
are frozen when fine-tuning is disabled (lines 251-253, before the head is
replaced); the fresh `nn.Linear` head always requires gradients. -/
def mainRequiresGrad (m : MainCfg) : List Bool :=
  (m.backbone_init.map (fun _ => m.fine_tune)) ++ (m.fc_init.map (fun _ => true))

/-- Indices of the parameters handed to `optim.Adam`: all of them when
fine-tuning, else exactly `model_conv.fc.parameters()`. -/
def mainParamIdx (m : MainCfg) : List Nat :=
  if m.fine_tune then List.range (m.backbone_init.length + m.fc_init.length)
  else (List.range m.fc_init.length).map (fun i => m.backbone_init.length + i)

/-- Order on best-R2 values, `none` playing `float("-inf")`. -/
def bestLe : Option ℚ → Option ℚ → Prop
  | none, _ => True
  | some _, none => False
  | some a, some b => a ≤ b

/-- Strict comparison `epoch_r2 > best_r2` from the source, `none` = `-inf`. -/
def ltBest : Option ℚ → ℚ → Prop
  | none, _ => True
  | some b, r => b < r

/-- The stored best-checkpoint data of `st` is exactly the data produced at
epoch `e` of the run: the val-phase outputs of epoch `e`, its val R2, and the
model parameters current at that point. -/
def BestFromEpoch {σ ι : Type} (cfg : Cfg ι σ) (p0 : List ℚ) (s0 : σ) (e : Nat)
    (st : RunState σ) : Prop :=
  ∃ stpre rT rV,
    stateAfter cfg (initState p0 s0) (e - 1) = .ok stpre ∧
    runPhase true cfg.forward cfg.criterion cfg.opt stpre.params stpre.optState
      (cfg.trainLoader e) = .ok rT ∧
    runPhase false cfg.forward cfg.criterion cfg.opt rT.params rT.optState
      (cfg.valLoader e) = .ok rV ∧
    st.best_r2 = some (r2_score rV.y_true rV.y_pred) ∧
    st.best_model_wts = rV.params ∧
    st.best_y_pred = rV.y_pred ∧
    st.best_y_true = rV.y_true

/-! ## Helper lemmas -/

theorem saveLogs_params {σ : Type} (st : RunState σ) (t : Option Nat) :
    (saveLogs st t).params = st.params := rfl

theorem saveLogs_optState {σ : Type} (st : RunState σ) (t : Option Nat) :
    (saveLogs st t).optState = st.optState := rfl

theorem saveLogs_best_model_wts {σ : Type} (st : RunState σ) (t : Option Nat) :
    (saveLogs st t).best_model_wts = st.best_model_wts := rfl

theorem saveLogs_best_r2 {σ : Type} (st : RunState σ) (t : Option Nat) :
    (saveLogs st t).best_r2 = st.best_r2 := rfl

theorem saveLogs_best_y_pred {σ : Type} (st : RunState σ) (t : Option Nat) :
    (saveLogs st t).best_y_pred = st.best_y_pred := rfl

theorem saveLogs_best_y_true {σ : Type} (st : RunState σ) (t : Option Nat) :
    (saveLogs st t).best_y_true = st.best_y_true := rfl

theorem saveLogs_losses_train {σ : Type} (st : RunState σ) (t : Option Nat) :
    (saveLogs st t).losses_train = st.losses_train := rfl

theorem saveLogs_losses_val {σ : Type} (st : RunState σ) (t : Option Nat) :
    (saveLogs st t).losses_val = st.losses_val := rfl

theorem saveLogs_r2s_train {σ : Type} (st : RunState σ) (t : Option Nat) :
    (saveLogs st t).r2s_train = st.r2s_train := rfl

theorem saveLogs_r2s_val {σ : Type} (st : RunState σ) (t : Option Nat) :
    (saveLogs st t).r2s_val = st.r2s_val := rfl

theorem maybeLog_params {σ ι : Type} (cfg : Cfg ι σ) (e : Nat) (st : RunState σ) :
    (maybeLog cfg e st).params = st.params := by
  unfold maybeLog; split <;> rfl

theorem maybeLog_optState {σ ι : Type} (cfg : Cfg ι σ) (e : Nat) (st : RunState σ) :
    (maybeLog cfg e st).optState = st.optState := by
  unfold maybeLog; split <;> rfl

theorem maybeLog_best_model_wts {σ ι : Type} (cfg : Cfg ι σ) (e : Nat) (st : RunState σ) :
    (maybeLog cfg e st).best_model_wts = st.best_model_wts := by
  unfold maybeLog; split <;> rfl

theorem maybeLog_best_r2 {σ ι : Type} (cfg : Cfg ι σ) (e : Nat) (st : RunState σ) :
    (maybeLog cfg e st).best_r2 = st.best_r2 := by
  unfold maybeLog; split <;> rfl

theorem maybeLog_best_y_pred {σ ι : Type} (cfg : Cfg ι σ) (e : Nat) (st : RunState σ) :
    (maybeLog cfg e st).best_y_pred = st.best_y_pred := by
  unfold maybeLog; split <;> rfl

theorem maybeLog_best_y_true {σ ι : Type} (cfg : Cfg ι σ) (e : Nat) (st : RunState σ) :
    (maybeLog cfg e st).best_y_true = st.best_y_true := by
  unfold maybeLog; split <;> rfl

theorem maybeLog_losses_train {σ ι : Type} (cfg : Cfg ι σ) (e : Nat) (st : RunState σ) :
    (maybeLog cfg e st).losses_train = st.losses_train := by
  unfold maybeLog; split <;> rfl

theorem maybeLog_losses_val {σ ι : Type} (cfg : Cfg ι σ) (e : Nat) (st : RunState σ) :
    (maybeLog cfg e st).losses_val = st.losses_val := by
  unfold maybeLog; split <;> rfl

theorem maybeLog_r2s_train {σ ι : Type} (cfg : Cfg ι σ) (e : Nat) (st : RunState σ) :
    (maybeLog cfg e st).r2s_train = st.r2s_train := by
  unfold maybeLog; split <;> rfl

theorem maybeLog_r2s_val {σ ι : Type} (cfg : Cfg ι σ) (e : Nat) (st : RunState σ) :
    (maybeLog cfg e st).r2s_val = st.r2s_val := by
  unfold maybeLog; split <;> rfl

theorem bestUpdate_spec {σ : Type} (r2v : ℚ) (yp yt : List ℚ) (st : RunState σ) :
    (¬ ltBest st.best_r2 r2v ∧ bestUpdate r2v yp yt st = st) ∨
    (ltBest st.best_r2 r2v ∧ bestUpdate r2v yp yt st =
      { st with
        best_r2 := some r2v
        best_y_pred := yp
        best_y_true := yt
        best_model_wts := st.params }) := by
  unfold bestUpdate
  cases hb : st.best_r2 with
  | none =>
    right
    exact ⟨trivial, rfl⟩
  | some b =>
    dsimp only
    by_cases hlt : b < r2v
    · right
      rw [if_pos hlt]
      exact ⟨hlt, rfl⟩
    · left
      rw [if_neg hlt]
      exact ⟨hlt, rfl⟩

theorem squeezeTolist_of_len_ne_one (xs : List ℚ) (h : xs.length ≠ 1) :
    squeezeTolist xs = .plainList xs := by
  match xs with
  | [] => rfl
  | [x] => exact absurd rfl h
  | x :: y :: rest => rfl

theorem listIAdd_ok (acc xs : List ℚ) (h : xs.length ≠ 1) :
    listIAdd acc (squeezeTolist xs) = .ok (acc ++ xs) := by
  rw [squeezeTolist_of_len_ne_one xs h]; rfl

theorem runBatches_val_preserves {σ ι : Type} (f : List ℚ → ι → ℚ)
    (c : List ℚ → List ℚ → ℚ) (opt : Optimizer σ ι) :
    ∀ (batches : List (Batch ι)) (params : List ℚ) (s : σ) (yt yp : List ℚ) (rl : ℚ)
      (r : PhaseResult σ),
      runBatches false f c opt params s yt yp rl batches = .ok r →
      r.params = params ∧ r.optState = s := by
  intro batches
  induction batches with
  | nil =>
    intro params s yt yp rl r h
    simp only [runBatches] at h
    cases h
    exact ⟨rfl, rfl⟩
  | cons b rest ih =>
    intro params s yt yp rl r h
    simp only [runBatches] at h
    cases hadd : listIAdd yp (squeezeTolist (b.inputs.map (f params))) with
    | error e =>
      rw [hadd] at h
      simp at h
    | ok y2 =>
      rw [hadd] at h
      simp only [Bool.false_eq_true, if_false] at h
      exact ih _ _ _ _ _ _ h

theorem runBatches_err_singleton {σ ι : Type} (isTrain : Bool) (f : List ℚ → ι → ℚ)
    (c : List ℚ → List ℚ → ℚ) (opt : Optimizer σ ι) :
    ∀ (bs : List (Batch ι)) (b : Batch ι) (params : List ℚ) (s : σ) (yt yp : List ℚ) (rl : ℚ),
      (∀ b2 ∈ bs, b2.inputs.length ≠ 1) → b.inputs.length = 1 →
      runBatches isTrain f c opt params s yt yp rl (bs ++ [b]) =
        .error "TypeError: float object is not iterable" := by
  intro bs
  induction bs with
  | nil =>
    intro b params s yt yp rl hall hb
    obtain ⟨x, hx⟩ := List.length_eq_one.mp hb
    simp [runBatches, hx, squeezeTolist, listIAdd]
  | cons b2 rest ih =>
    intro b params s yt yp rl hall hb
    have h2 : b2.inputs.length ≠ 1 := hall b2 (by simp)
    have hout : ((b2.inputs.map (f params)).length ≠ 1) := by simpa using h2
    simp only [List.cons_append, runBatches]
    rw [listIAdd_ok _ _ hout]
    exact ih b _ _ _ _ _ (fun z hz => hall z (by simp [hz])) hb

theorem chunksGo_decomp {α : Type} (B : Nat) (hB : 2 ≤ B) :
    ∀ (fuel : Nat) (xs : List α), xs.length ≤ fuel → xs.length % B = 1 →
      ∃ cs cc, chunksGo B fuel xs = cs ++ [cc] ∧ cc.length = 1 ∧ ∀ d ∈ cs, d.length = B := by
  intro fuel
  induction fuel with
  | zero =>
    intro xs hle hmod
    have h0 : xs.length = 0 := Nat.le_zero.mp hle
    rw [h0, Nat.zero_mod] at hmod
    exact absurd hmod (by omega)
  | succ fuel ih =>
    intro xs hle hmod
    cases xs with
    | nil =>
      rw [List.length_nil, Nat.zero_mod] at hmod
      exact absurd hmod (by omega)
    | cons x xs' =>
      rw [List.length_cons] at hmod hle
      by_cases hone : xs'.length = 0
      · have hxs : xs' = [] := List.length_eq_zero.mp hone
        subst hxs
        exact ⟨[], [x], by simp [chunksGo], rfl, by intro d hd; cases hd⟩
      · have hBL : B ≤ xs'.length := by
          by_contra hc
          push_neg at hc
          rcases Nat.lt_or_ge (xs'.length + 1) B with h1 | h1
          · rw [Nat.mod_eq_of_lt h1] at hmod
            omega
          · have hEB : xs'.length + 1 = B := by omega
            rw [hEB, Nat.mod_self] at hmod
            omega
        have htake : (x :: xs'.take (B - 1)).length = B := by
          rw [List.length_cons, List.length_take, min_eq_left (by omega)]
          omega
        have hdrop_len : (xs'.drop (B - 1)).length = xs'.length - (B - 1) :=
          List.length_drop _ _
        have hsplit : xs'.length + 1 = B + (xs'.length + 1 - B) := by omega
        rw [hsplit, Nat.add_mod_left] at hmod
        have hfuel : (xs'.drop (B - 1)).length ≤ fuel := by
          rw [hdrop_len]; omega
        have hmod2 : (xs'.drop (B - 1)).length % B = 1 := by
          rw [hdrop_len]
          have hk : xs'.length - (B - 1) = xs'.length + 1 - B := by omega
          rw [hk]
          exact hmod
        obtain ⟨cs, cc, hEq, hcl, hcs⟩ := ih (xs'.drop (B - 1)) hfuel hmod2
        refine ⟨(x :: xs'.take (B - 1)) :: cs, cc, ?_, hcl, ?_⟩
        · simp [chunksGo, hEq]
        · intro d hd
          rcases List.mem_cons.mp hd with hd1 | hd1
          · rw [hd1]; exact htake
          · exact hcs d hd1

/-! ## Claims about load_dataset (C1, C8, C10) -/

/-- C1 counterexample: calling `load_dataset` with the unsupported imagery type
tag "l8" (country "india") does NOT fail: it succeeds and silently builds the
`CenterCrop(100)` fallback preset for both the train and the val pipeline,
contradicting the claim that an unrecognized type fails fast with a descriptive
error while building the transform pipeline. -/
theorem c1_counterexample :
    ((load_dataset "train.csv" "valid.csv" "td" "vd" "india" "secc" "l8" 2015 128 1).2.map
        (fun ld => (ld.train_dataset.transform.head?, ld.val_dataset.transform.head?))) =
      .ok (some (Transform.centerCrop 100), some (Transform.centerCrop 100)) := rfl

/-- C1 (amended): for every imagery type tag other than "s1" and either
supported country, `load_dataset` raises no error for the tag and silently
falls back to the `CenterCrop(100)` crop preset (the non-"s1" preset) at the
head of both transform pipelines. -/
theorem c1_unknown_sat_type_fallback
    (train_csv_path val_csv_path train_data_dir val_data_dir country label sat_type : String)
    (year batch_size : Nat) (train_frac : ℚ)
    (hsat : sat_type ≠ "s1")
    (hcountry : country = "bangladesh" ∨ country = "india") :
    ((load_dataset train_csv_path val_csv_path train_data_dir val_data_dir country label
        sat_type year batch_size train_frac).2.map
      (fun ld => (ld.train_dataset.transform.head?, ld.val_dataset.transform.head?))) =
      .ok (some (Transform.centerCrop 100), some (Transform.centerCrop 100)) := by
  rcases hcountry with h | h <;> subst h <;>
    simp [load_dataset, if_neg hsat, Except.map, List.head?]

/-- C1 witness: concrete instance of the amended claim at sat_type "l8",
country "bangladesh". -/
theorem c1_witness :
    ((load_dataset "t.csv" "v.csv" "td" "vd" "bangladesh" "lbl" "l8" 2015 128 1).2.map
      (fun ld => (ld.train_dataset.transform.head?, ld.val_dataset.transform.head?))) =
      .ok (some (Transform.centerCrop 100), some (Transform.centerCrop 100)) :=
  c1_unknown_sat_type_fallback "t.csv" "v.csv" "td" "vd" "bangladesh" "lbl" "l8" 2015 128 1
    (by decide) (Or.inl rfl)

/-- C8: for every country selector other than "bangladesh" and "india",
`load_dataset` returns the "not implemented" error with an EMPTY construction
trace: no dataset adapter is constructed, hence no data loading occurs. -/
theorem c8_unsupported_country_error
    (train_csv_path val_csv_path train_data_dir val_data_dir country label sat_type : String)
    (year batch_size : Nat) (train_frac : ℚ)
    (hb : country ≠ "bangladesh") (hi : country ≠ "india") :
    load_dataset train_csv_path val_csv_path train_data_dir val_data_dir country label
      sat_type year batch_size train_frac =
      ([], .error "Only Bangladesh and India supported.") := by
  simp [load_dataset, if_neg hb, if_neg hi]

/-- C8 witness: concrete unsupported country "france". -/
theorem c8_witness :
    load_dataset "t.csv" "v.csv" "td" "vd" "france" "lbl" "s1" 2015 128 1 =
      ([], .error "Only Bangladesh and India supported.") :=
  c8_unsupported_country_error "t.csv" "v.csv" "td" "vd" "france" "lbl" "s1" 2015 128 1
    (by decide) (by decide)

/-- C10: whenever `load_dataset` succeeds, the validation dataset adapter is
constructed with the SAME sampling fraction as the train dataset adapter, namely
the train_frac argument (`frac=train_frac` on both constructions). -/
theorem c10_val_frac_equals_train_frac
    (train_csv_path val_csv_path train_data_dir val_data_dir country label sat_type : String)
    (year batch_size : Nat) (train_frac : ℚ) (ld : LoadedData)
    (h : (load_dataset train_csv_path val_csv_path train_data_dir val_data_dir country label
        sat_type year batch_size train_frac).2 = .ok ld) :
    ld.train_dataset.frac = train_frac ∧ ld.val_dataset.frac = train_frac := by
  simp only [load_dataset] at h
  by_cases hb : country = "bangladesh"
  · simp only [if_pos hb] at h
    injection h with h2
    subst h2
    exact ⟨rfl, rfl⟩
  · by_cases hi : country = "india"
    · simp only [if_neg hb, if_pos hi] at h
      injection h with h2
      subst h2
      exact ⟨rfl, rfl⟩
    · simp only [if_neg hb, if_neg hi] at h
      cases h

/-- C10 witness data: the successful result of a concrete call with
train_frac 1/2. -/
def c10ld : LoadedData :=
  ((load_dataset "t.csv" "v.csv" "td" "vd" "india" "lbl" "s1" 2015 128 (1/2)).2.toOption).getD
    ⟨⟨"", "", "", "", [], "", 0, 0⟩, ⟨"", "", "", "", [], "", 0, 0⟩, 0⟩

/-- C10 witness: at a concrete call with train_frac 1/2, both adapters carry
fraction 1/2. -/
theorem c10_witness :
    (load_dataset "t.csv" "v.csv" "td" "vd" "india" "lbl" "s1" 2015 128 (1/2)).2 = .ok c10ld ∧
    c10ld.train_dataset.frac = 1/2 ∧ c10ld.val_dataset.frac = 1/2 :=
  ⟨rfl, c10_val_frac_equals_train_frac "t.csv" "v.csv" "td" "vd" "india" "lbl" "s1" 2015 128
    (1/2) c10ld rfl⟩

/-! ## Claim C6 (val phase mutates no parameters) and C9 (singleton final batch) -/

/-- C6: for every val phase (of any epoch), backpropagation and the optimizer
step never run: if the val phase completes, the model parameters (and the
optimizer state) after it are identical to those before it. -/
theorem c6_val_phase_no_param_mutation {σ ι : Type}
    (forward : List ℚ → ι → ℚ) (criterion : List ℚ → List ℚ → ℚ) (opt : Optimizer σ ι)
    (params : List ℚ) (optState : σ) (batches : List (Batch ι)) (r : PhaseResult σ)
    (h : runPhase false forward criterion opt params optState batches = .ok r) :
    r.params = params ∧ r.optState = optState :=
  runBatches_val_preserves forward criterion opt batches params optState [] [] 0 r h

def c6forward : List ℚ → ℚ → ℚ := fun _ _ => 0

def c6criterion : List ℚ → List ℚ → ℚ := fun _ _ => 0

def c6opt : Optimizer Unit ℚ := ⟨[], fun s _ _ => (s, fun _ x => x)⟩

def c6batches : List (Batch ℚ) := [⟨[1, 2], [1, 2]⟩]

def c6result : PhaseResult Unit :=
  (runPhase false c6forward c6criterion c6opt [5] () c6batches).toOption.getD ⟨[], (), [], [], 0⟩

/-- C6 witness: a concrete completed val phase whose resulting parameters are
the input parameters. -/
theorem c6_witness :
    runPhase false c6forward c6criterion c6opt [5] () c6batches = .ok c6result ∧
    c6result.params = [5] :=
  ⟨rfl,
    (c6_val_phase_no_param_mutation c6forward c6criterion c6opt [5] () c6batches c6result
      rfl).1⟩

/-- C9: if the phase dataset size is congruent to 1 modulo the batch size
(batch size at least 2), the final batch contains exactly one sample, squeezing
its 1-by-1 prediction tensor yields a bare scalar, and appending it to the
prediction list raises a TypeError that aborts the phase, for either phase and
any model, criterion and optimizer. -/
theorem c9_singleton_final_batch_aborts {σ ι : Type} (isTrain : Bool)
    (f : List ℚ → ι → ℚ) (c : List ℚ → List ℚ → ℚ) (opt : Optimizer σ ι)
    (params : List ℚ) (s : σ) (dataset : List (ι × ℚ)) (B : Nat)
    (hB : 2 ≤ B) (hmod : dataset.length % B = 1) :
    runPhase isTrain f c opt params s (loaderBatches B dataset) =
      .error "TypeError: float object is not iterable" := by
  obtain ⟨cs, cc, hEq, hc1, hcs⟩ :=
    chunksGo_decomp B hB dataset.length dataset (le_refl _) hmod
  unfold runPhase loaderBatches chunks
  rw [hEq, List.map_append, List.map_cons, List.map_nil]
  apply runBatches_err_singleton
  · intro b2 hb2
    rw [List.mem_map] at hb2
    obtain ⟨d, hd, hbd⟩ := hb2
    rw [← hbd]
    have : d.length = B := hcs d hd
    simp [this]
    omega
  · simp [hc1]

/-- C9 witness: batch size 2 over a 3-sample ordered dataset (3 % 2 = 1)
aborts with the TypeError. -/
theorem c9_witness :
    runPhase true c6forward c6criterion c6opt [5] ()
        (loaderBatches 2 [((1 : ℚ), (1 : ℚ)), (2, 2), (3, 3)]) =
      .error "TypeError: float object is not iterable" :=
  c9_singleton_final_batch_aborts true c6forward c6criterion c6opt [5] ()
    [((1 : ℚ), (1 : ℚ)), (2, 2), (3, 3)] 2 (by decide) (by decide)

/-! ## Field lemmas for the epoch bookkeeping -/

theorem trainPhaseUpdate_params {σ ι : Type} (cfg : Cfg ι σ) (st : RunState σ)
    (rT : PhaseResult σ) : (trainPhaseUpdate cfg st rT).params = rT.params := rfl

theorem trainPhaseUpdate_optState {σ ι : Type} (cfg : Cfg ι σ) (st : RunState σ)
    (rT : PhaseResult σ) : (trainPhaseUpdate cfg st rT).optState = rT.optState := rfl

theorem trainPhaseUpdate_best_r2 {σ ι : Type} (cfg : Cfg ι σ) (st : RunState σ)
    (rT : PhaseResult σ) : (trainPhaseUpdate cfg st rT).best_r2 = st.best_r2 := rfl

theorem trainPhaseUpdate_best_model_wts {σ ι : Type} (cfg : Cfg ι σ) (st : RunState σ)
    (rT : PhaseResult σ) : (trainPhaseUpdate cfg st rT).best_model_wts = st.best_model_wts := rfl

theorem trainPhaseUpdate_best_y_pred {σ ι : Type} (cfg : Cfg ι σ) (st : RunState σ)
    (rT : PhaseResult σ) : (trainPhaseUpdate cfg st rT).best_y_pred = st.best_y_pred := rfl

theorem trainPhaseUpdate_best_y_true {σ ι : Type} (cfg : Cfg ι σ) (st : RunState σ)
    (rT : PhaseResult σ) : (trainPhaseUpdate cfg st rT).best_y_true = st.best_y_true := rfl

theorem trainPhaseUpdate_losses_train {σ ι : Type} (cfg : Cfg ι σ) (st : RunState σ)
    (rT : PhaseResult σ) :
    (trainPhaseUpdate cfg st rT).losses_train =
      st.losses_train ++ [rT.running_loss / cfg.trainSize] := rfl

theorem trainPhaseUpdate_losses_val {σ ι : Type} (cfg : Cfg ι σ) (st : RunState σ)
    (rT : PhaseResult σ) : (trainPhaseUpdate cfg st rT).losses_val = st.losses_val := rfl

theorem trainPhaseUpdate_r2s_train {σ ι : Type} (cfg : Cfg ι σ) (st : RunState σ)
    (rT : PhaseResult σ) :
    (trainPhaseUpdate cfg st rT).r2s_train =
      st.r2s_train ++ [r2_score rT.y_true rT.y_pred] := rfl

theorem trainPhaseUpdate_r2s_val {σ ι : Type} (cfg : Cfg ι σ) (st : RunState σ)
    (rT : PhaseResult σ) : (trainPhaseUpdate cfg st rT).r2s_val = st.r2s_val := rfl

theorem valPhaseUpdate_params {σ ι : Type} (cfg : Cfg ι σ) (st : RunState σ)
    (rV : PhaseResult σ) : (valPhaseUpdate cfg st rV).params = rV.params := rfl

theorem valPhaseUpdate_optState {σ ι : Type} (cfg : Cfg ι σ) (st : RunState σ)
    (rV : PhaseResult σ) : (valPhaseUpdate cfg st rV).optState = rV.optState := rfl

theorem valPhaseUpdate_best_r2 {σ ι : Type} (cfg : Cfg ι σ) (st : RunState σ)
    (rV : PhaseResult σ) : (valPhaseUpdate cfg st rV).best_r2 = st.best_r2 := rfl

theorem valPhaseUpdate_best_model_wts {σ ι : Type} (cfg : Cfg ι σ) (st : RunState σ)
    (rV : PhaseResult σ) : (valPhaseUpdate cfg st rV).best_model_wts = st.best_model_wts := rfl

theorem valPhaseUpdate_best_y_pred {σ ι : Type} (cfg : Cfg ι σ) (st : RunState σ)
    (rV : PhaseResult σ) : (valPhaseUpdate cfg st rV).best_y_pred = st.best_y_pred := rfl

theorem valPhaseUpdate_best_y_true {σ ι : Type} (cfg : Cfg ι σ) (st : RunState σ)
    (rV : PhaseResult σ) : (valPhaseUpdate cfg st rV).best_y_true = st.best_y_true := rfl

theorem valPhaseUpdate_losses_train {σ ι : Type} (cfg : Cfg ι σ) (st : RunState σ)
    (rV : PhaseResult σ) : (valPhaseUpdate cfg st rV).losses_train = st.losses_train := rfl

theorem valPhaseUpdate_losses_val {σ ι : Type} (cfg : Cfg ι σ) (st : RunState σ)
    (rV : PhaseResult σ) :
    (valPhaseUpdate cfg st rV).losses_val =
      st.losses_val ++ [rV.running_loss / cfg.valSize] := rfl

theorem valPhaseUpdate_r2s_train {σ ι : Type} (cfg : Cfg ι σ) (st : RunState σ)
    (rV : PhaseResult σ) : (valPhaseUpdate cfg st rV).r2s_train = st.r2s_train := rfl

theorem valPhaseUpdate_r2s_val {σ ι : Type} (cfg : Cfg ι σ) (st : RunState σ)
    (rV : PhaseResult σ) :
    (valPhaseUpdate cfg st rV).r2s_val =
      st.r2s_val ++ [r2_score rV.y_true rV.y_pred] := rfl

/-- Full characterization of one successful epoch: both phases ran in order from
the correct states, all four history lists got exactly one append, and the best
checkpoint either stayed exactly as it was (no strict improvement) or was
replaced by exactly the val data of this epoch (strict improvement). -/
theorem epochStep_spec {σ ι : Type} (cfg : Cfg ι σ) (epoch : Nat) (st st' : RunState σ)
    (h : epochStep cfg epoch st = .ok st') :
    ∃ rT rV,
      runPhase true cfg.forward cfg.criterion cfg.opt st.params st.optState
        (cfg.trainLoader epoch) = .ok rT ∧
      runPhase false cfg.forward cfg.criterion cfg.opt rT.params rT.optState
        (cfg.valLoader epoch) = .ok rV ∧
      st'.params = rV.params ∧
      st'.optState = rV.optState ∧
      st'.losses_train = st.losses_train ++ [rT.running_loss / cfg.trainSize] ∧
      st'.losses_val = st.losses_val ++ [rV.running_loss / cfg.valSize] ∧
      st'.r2s_train = st.r2s_train ++ [r2_score rT.y_true rT.y_pred] ∧
      st'.r2s_val = st.r2s_val ++ [r2_score rV.y_true rV.y_pred] ∧
      ((¬ ltBest st.best_r2 (r2_score rV.y_true rV.y_pred) ∧
          st'.best_r2 = st.best_r2 ∧ st'.best_model_wts = st.best_model_wts ∧
          st'.best_y_pred = st.best_y_pred ∧ st'.best_y_true = st.best_y_true) ∨
       (ltBest st.best_r2 (r2_score rV.y_true rV.y_pred) ∧
          st'.best_r2 = some (r2_score rV.y_true rV.y_pred) ∧
          st'.best_model_wts = rV.params ∧
          st'.best_y_pred = rV.y_pred ∧ st'.best_y_true = rV.y_true)) := by
  unfold epochStep at h
  cases hT : runPhase true cfg.forward cfg.criterion cfg.opt st.params st.optState
      (cfg.trainLoader epoch) with
  | error e =>
    rw [hT] at h
    simp at h
  | ok rT =>
    rw [hT] at h
    dsimp only at h
    rw [maybeLog_params, maybeLog_optState, trainPhaseUpdate_params,
      trainPhaseUpdate_optState] at h
    cases hV : runPhase false cfg.forward cfg.criterion cfg.opt rT.params rT.optState
        (cfg.valLoader epoch) with
    | error e =>
      rw [hV] at h
      simp at h
    | ok rV =>
      rw [hV] at h
      dsimp only at h
      injection h with h2
      rcases bestUpdate_spec (r2_score rV.y_true rV.y_pred) rV.y_pred rV.y_true
          (valPhaseUpdate cfg (maybeLog cfg epoch (trainPhaseUpdate cfg st rT)) rV) with
        ⟨hnlt, hEqB⟩ | ⟨hlt, hEqB⟩
      · rw [hEqB] at h2
        subst h2
        refine ⟨rT, rV, rfl, hV, ?_, ?_, ?_, ?_, ?_, ?_, Or.inl ⟨?_, ?_, ?_, ?_, ?_⟩⟩ <;>
          simp only [maybeLog_params, maybeLog_optState, maybeLog_best_r2,
            maybeLog_best_model_wts, maybeLog_best_y_pred, maybeLog_best_y_true,
            maybeLog_losses_train, maybeLog_losses_val, maybeLog_r2s_train, maybeLog_r2s_val,
            valPhaseUpdate_params, valPhaseUpdate_optState, valPhaseUpdate_best_r2,
            valPhaseUpdate_best_model_wts, valPhaseUpdate_best_y_pred,
            valPhaseUpdate_best_y_true, valPhaseUpdate_losses_train, valPhaseUpdate_losses_val,
            valPhaseUpdate_r2s_train, valPhaseUpdate_r2s_val,
            trainPhaseUpdate_params, trainPhaseUpdate_optState, trainPhaseUpdate_best_r2,
            trainPhaseUpdate_best_model_wts, trainPhaseUpdate_best_y_pred,
            trainPhaseUpdate_best_y_true, trainPhaseUpdate_losses_train,
            trainPhaseUpdate_losses_val, trainPhaseUpdate_r2s_train,
            trainPhaseUpdate_r2s_val] at hnlt ⊢
        exact hnlt
      · rw [hEqB] at h2
        subst h2
        refine ⟨rT, rV, rfl, hV, ?_, ?_, ?_, ?_, ?_, ?_, Or.inr ⟨?_, ?_, ?_, ?_, ?_⟩⟩ <;>
          simp only [maybeLog_params, maybeLog_optState, maybeLog_best_r2,
            maybeLog_best_model_wts, maybeLog_best_y_pred, maybeLog_best_y_true,
            maybeLog_losses_train, maybeLog_losses_val, maybeLog_r2s_train, maybeLog_r2s_val,
            valPhaseUpdate_params, valPhaseUpdate_optState, valPhaseUpdate_best_r2,
            valPhaseUpdate_best_model_wts, valPhaseUpdate_best_y_pred,
            valPhaseUpdate_best_y_true, valPhaseUpdate_losses_train, valPhaseUpdate_losses_val,
            valPhaseUpdate_r2s_train, valPhaseUpdate_r2s_val,
            trainPhaseUpdate_params, trainPhaseUpdate_optState, trainPhaseUpdate_best_r2,
            trainPhaseUpdate_best_model_wts, trainPhaseUpdate_best_y_pred,
            trainPhaseUpdate_best_y_true, trainPhaseUpdate_losses_train,
            trainPhaseUpdate_losses_val, trainPhaseUpdate_r2s_train,
            trainPhaseUpdate_r2s_val] at hlt ⊢
        exact hlt

/-! ## Best-R2 order lemmas and the run-level induction -/

theorem bestLe_refl (x : Option ℚ) : bestLe x x := by
  cases x with
  | none => trivial
  | some a => exact le_refl a

theorem bestLe_trans {x y z : Option ℚ} (h1 : bestLe x y) (h2 : bestLe y z) : bestLe x z := by
  cases x with
  | none => trivial
  | some a =>
    cases y with
    | none => exact h1.elim
    | some b =>
      cases z with
      | none => exact h2.elim
      | some c => exact le_trans h1 h2

theorem ltBest_bestLe {x : Option ℚ} {r : ℚ} (h : ltBest x r) : bestLe x (some r) := by
  cases x with
  | none => trivial
  | some b => exact le_of_lt h

theorem epochStep_best_mono {σ ι : Type} (cfg : Cfg ι σ) (epoch : Nat) (st st' : RunState σ)
    (h : epochStep cfg epoch st = .ok st') :
    bestLe st.best_r2 st'.best_r2 ∧
    (st'.best_r2 ≠ st.best_r2 → ∃ r, st'.best_r2 = some r ∧ ltBest st.best_r2 r) := by
  obtain ⟨rT, rV, _, _, _, _, _, _, _, _, hbest⟩ := epochStep_spec cfg epoch st st' h
  rcases hbest with ⟨hn, he, _, _, _⟩ | ⟨hl, he, _, _, _⟩
  · rw [he]
    exact ⟨bestLe_refl _, fun hne => (hne rfl).elim⟩
  · rw [he]
    exact ⟨ltBest_bestLe hl, fun _ => ⟨_, rfl, hl⟩⟩

theorem stateAfter_succ_ok {σ ι : Type} (cfg : Cfg ι σ) (st0 : RunState σ) (k : Nat)
    (st : RunState σ) (h : stateAfter cfg st0 (k + 1) = .ok st) :
    ∃ stk, stateAfter cfg st0 k = .ok stk ∧ epochStep cfg (k + 1) stk = .ok st := by
  simp only [stateAfter] at h
  cases hk : stateAfter cfg st0 k with
  | error e => rw [hk] at h; simp at h
  | ok stk =>
    rw [hk] at h
    exact ⟨stk, rfl, h⟩

theorem stateAfter_best_mono {σ ι : Type} (cfg : Cfg ι σ) (st0 : RunState σ) :
    ∀ (d i : Nat) (sti stj : RunState σ),
      stateAfter cfg st0 i = .ok sti → stateAfter cfg st0 (i + d) = .ok stj →
      bestLe sti.best_r2 stj.best_r2 := by
  intro d
  induction d with
  | zero =>
    intro i sti stj h1 h2
    rw [Nat.add_zero, h1] at h2
    injection h2 with h3
    rw [← h3]
    exact bestLe_refl _
  | succ d ih =>
    intro i sti stj h1 h2
    rw [Nat.add_succ] at h2
    obtain ⟨stk, hk, hstep⟩ := stateAfter_succ_ok cfg st0 (i + d) stj h2
    exact bestLe_trans (ih i sti stk h1 hk) (epochStep_best_mono cfg _ stk stj hstep).1

/-- C5: across every run, the best validation R2 value is monotonically
non-decreasing over the epochs (with the initial `-inf` below everything), and
the best value changes only on strict improvement: whenever an epoch changes
it, the new value is the val R2 of this epoch and it strictly exceeds the previous
best. -/
theorem c5_best_r2_monotone_strict {σ ι : Type} (cfg : Cfg ι σ) (st0 : RunState σ) :
    (∀ (i j : Nat) (sti stj : RunState σ), i ≤ j →
      stateAfter cfg st0 i = .ok sti → stateAfter cfg st0 j = .ok stj →
      bestLe sti.best_r2 stj.best_r2) ∧
    (∀ (epoch : Nat) (st st' : RunState σ), epochStep cfg epoch st = .ok st' →
      st'.best_r2 ≠ st.best_r2 →
      ∃ r, st'.best_r2 = some r ∧ ltBest st.best_r2 r) := by
  constructor
  · intro i j sti stj hij h1 h2
    obtain ⟨d, hd⟩ := Nat.exists_eq_add_of_le hij
    subst hd
    exact stateAfter_best_mono cfg st0 d i sti stj h1 h2
  · intro epoch st st' h hne
    exact (epochStep_best_mono cfg epoch st st' h).2 hne

/-- Value-level bookkeeping of the best checkpoint: at every epoch boundary,
either no val epoch has finished (best state still the initial one), or there
is an epoch e of the run whose val phase produced exactly the stored best
VALUES.  This characterizes the selection logic only; it deliberately says
nothing about the CPU-path tensor aliasing of `state_dict()`, under which the
snapshot integrity asserted by claim C4 fails (see `c4_cpu_snapshot_mutated`). -/
theorem c4_best_state_from_best_epoch {σ ι : Type} (cfg : Cfg ι σ) (p0 : List ℚ) (s0 : σ) :
    ∀ (k : Nat) (st : RunState σ), stateAfter cfg (initState p0 s0) k = .ok st →
      (st.best_r2 = none ∧ st.best_model_wts = p0 ∧ st.best_y_pred = ([] : List ℚ) ∧
        st.best_y_true = ([] : List ℚ)) ∨
      ∃ e, 1 ≤ e ∧ e ≤ k ∧ BestFromEpoch cfg p0 s0 e st := by
  intro k
  induction k with
  | zero =>
    intro st h
    injection h with h2
    rw [← h2]
    exact Or.inl ⟨rfl, rfl, rfl, rfl⟩
  | succ k ih =>
    intro st h
    obtain ⟨stk, hk, hstep⟩ := stateAfter_succ_ok cfg (initState p0 s0) k st h
    obtain ⟨rT, rV, hT, hV, hparams, _, _, _, _, _, hbest⟩ :=
      epochStep_spec cfg (k + 1) stk st hstep
    rcases hbest with ⟨hn, hbr, hbw, hbp, hbt⟩ | ⟨hl, hbr, hbw, hbp, hbt⟩
    · rcases ih stk hk with ⟨h1, h2, h3, h4⟩ | ⟨e, he1, he2, hbfe⟩
      · exact Or.inl ⟨by rw [hbr, h1], by rw [hbw, h2], by rw [hbp, h3], by rw [hbt, h4]⟩
      · refine Or.inr ⟨e, he1, Nat.le_succ_of_le he2, ?_⟩
        obtain ⟨stpre, rT2, rV2, hpre, hT2, hV2, hr2, hw2, hp2, ht2⟩ := hbfe
        exact ⟨stpre, rT2, rV2, hpre, hT2, hV2, by rw [hbr, hr2], by rw [hbw, hw2],
          by rw [hbp, hp2], by rw [hbt, ht2]⟩
    · refine Or.inr ⟨k + 1, by omega, le_refl _, stk, rT, rV, ?_, hT, hV, hbr, hbw, hbp, hbt⟩
      rw [Nat.add_sub_cancel]
      exact hk

/-- Shared 1-epoch witness configuration (trivial model and criterion). -/
def wcfg1 : Cfg ℚ Unit :=
  { forward := c6forward, criterion := c6criterion, opt := c6opt,
    trainLoader := fun _ => c6batches, valLoader := fun _ => c6batches,
    trainSize := 2, valSize := 2, num_epochs := 1, verbose := false, log_epoch_interval := 1 }

/-- State of the shared witness run after its single epoch. -/
def wrun1 : RunState Unit :=
  (stateAfter wcfg1 (initState [5] ()) 1).toOption.getD (initState [] ())

/-- Concrete instance of the value-level bookkeeping characterization on a
completed 1-epoch run. -/
theorem c4_witness :
    ((wrun1.best_r2 = none ∧ wrun1.best_model_wts = [5] ∧
        wrun1.best_y_pred = ([] : List ℚ) ∧ wrun1.best_y_true = ([] : List ℚ)) ∨
      ∃ e, 1 ≤ e ∧ e ≤ 1 ∧ BestFromEpoch wcfg1 [5] () e wrun1) :=
  c4_best_state_from_best_epoch wcfg1 [5] () 1 wrun1 rfl

/-- C5 witness: monotonicity from epoch 0 to 1 and the strict-improvement shape
of the first best update, on the concrete 1-epoch run. -/
theorem c5_witness :
    bestLe (initState ([5] : List ℚ) ()).best_r2 wrun1.best_r2 ∧
    ∃ r, wrun1.best_r2 = some r ∧ ltBest (initState ([5] : List ℚ) ()).best_r2 r := by
  refine ⟨(c5_best_r2_monotone_strict wcfg1 (initState [5] ())).1 0 1 (initState [5] ()) wrun1
    (Nat.zero_le 1) rfl rfl, ?_⟩
  refine (c5_best_r2_monotone_strict wcfg1 (initState [5] ())).2 1 (initState [5] ()) wrun1
    rfl ?_
  exact Option.some_ne_none _

/-! ## Claim C2: the recorded epoch loss is the unweighted batch-mean sum over size -/

theorem runBatches_loss_sum {σ ι : Type} (isTrain : Bool) (f : List ℚ → ι → ℚ)
    (c : List ℚ → List ℚ → ℚ) (opt : Optimizer σ ι) :
    ∀ (batches : List (Batch ι)) (params : List ℚ) (s : σ) (yt yp : List ℚ) (rl : ℚ)
      (r : PhaseResult σ),
      runBatches isTrain f c opt params s yt yp rl batches = .ok r →
      r.running_loss = rl + (batchMeanLosses isTrain f c opt params s batches).sum := by
  intro batches
  induction batches with
  | nil =>
    intro params s yt yp rl r h
    simp only [runBatches] at h
    cases h
    simp [batchMeanLosses]
  | cons b rest ih =>
    intro params s yt yp rl r h
    simp only [runBatches] at h
    cases hadd : listIAdd yp (squeezeTolist (b.inputs.map (f params))) with
    | error e => rw [hadd] at h; simp at h
    | ok y2 =>
      rw [hadd] at h
      have h2 := ih _ _ _ _ _ _ h
      rw [h2]
      simp only [batchMeanLosses, List.sum_cons]
      ring

/-- C2 (amended): for every phase of every epoch, the recorded epoch loss is the
UNWEIGHTED sum of the per-batch mean losses divided by the phase dataset size
(`running_loss += loss.data[0]` accumulates the batch mean without scaling by
the batch size), not the batch-size-weighted mean. -/
theorem c2_epoch_loss_unweighted {σ ι : Type} (cfg : Cfg ι σ) (epoch : Nat)
    (st st' : RunState σ) (h : epochStep cfg epoch st = .ok st') :
    ∃ rT,
      runPhase true cfg.forward cfg.criterion cfg.opt st.params st.optState
        (cfg.trainLoader epoch) = .ok rT ∧
      st'.losses_train = st.losses_train ++
        [(batchMeanLosses true cfg.forward cfg.criterion cfg.opt st.params st.optState
            (cfg.trainLoader epoch)).sum / cfg.trainSize] ∧
      st'.losses_val = st.losses_val ++
        [(batchMeanLosses false cfg.forward cfg.criterion cfg.opt rT.params rT.optState
            (cfg.valLoader epoch)).sum / cfg.valSize] := by
  obtain ⟨rT, rV, hT, hV, _, _, hlt, hlv, _, _, _⟩ := epochStep_spec cfg epoch st st' h
  have hT2 := runBatches_loss_sum true cfg.forward cfg.criterion cfg.opt
    (cfg.trainLoader epoch) st.params st.optState [] [] 0 rT hT
  have hV2 := runBatches_loss_sum false cfg.forward cfg.criterion cfg.opt
    (cfg.valLoader epoch) rT.params rT.optState [] [] 0 rV hV
  rw [zero_add] at hT2 hV2
  exact ⟨rT, hT, by rw [hlt, hT2], by rw [hlv, hV2]⟩

def c2forward : List ℚ → ℚ → ℚ := fun _ _ => 0

def c2trainBatches : List (Batch ℚ) := [⟨[1, 1, 1], [1, 1, 1]⟩, ⟨[2, 2], [2, 2]⟩]

def c2valBatches : List (Batch ℚ) := [⟨[1, 1], [1, 1]⟩]

/-- Configuration for the C2 counterexample: batch sizes 3 and 2 in the train
phase (dataset size 5), the real criterion of the program `nn.MSELoss()`, constant
zero predictions, no parameters. -/
def c2cfg : Cfg ℚ Unit :=
  { forward := c2forward, criterion := mseLoss, opt := c6opt,
    trainLoader := fun _ => c2trainBatches, valLoader := fun _ => c2valBatches,
    trainSize := 5, valSize := 2, num_epochs := 1, verbose := false, log_epoch_interval := 1 }

/-- C2 counterexample: in this concrete 1-epoch run the per-batch mean losses of
the train phase are 1 (batch of 3) and 4 (batch of 2), so the batch-size-weighted
mean is (1*3 + 4*2)/5 = 11/5, but the recorded epoch train loss is
(1 + 4)/5 = 1 - the code sums the batch means unweighted.  This refutes the
claim that the recorded epoch loss equals the batch-size-weighted mean. -/
theorem c2_counterexample :
    (train_model c2cfg [] ()).map RunState.losses_train = .ok [1] ∧
    batchMeanLosses true c2forward mseLoss c6opt [] () c2trainBatches = [1, 4] ∧
    c2trainBatches.map (fun b => b.labels.length) = [3, 2] ∧
    weightedBatchLossMean [(1, 3), (4, 2)] = 11 / 5 ∧
    ((11 / 5 : ℚ) ≠ 1) := by
  refine ⟨?_, ?_, ?_, ?_, by norm_num⟩
  · norm_num [train_model, stateAfter, epochStep, runPhase, runBatches, listIAdd,
      squeezeTolist, optStep, updateAt, maybeLog, saveLogs, bestUpdate, trainPhaseUpdate,
      valPhaseUpdate, initState, c2cfg, c2forward, c2trainBatches, c2valBatches, c6opt,
      mseLoss, Except.map]
  · norm_num [batchMeanLosses, c2forward, mseLoss, c6opt, c2trainBatches, optStep, updateAt]
  · rfl
  · norm_num [weightedBatchLossMean]

def c2st1 : RunState Unit :=
  (epochStep c2cfg 1 (initState [] ())).toOption.getD (initState [] ())

/-- C2 witness: the amended statement applied to the concrete 1-epoch run. -/
theorem c2_witness :
    ∃ rT,
      runPhase true c2cfg.forward c2cfg.criterion c2cfg.opt (initState ([] : List ℚ) ()).params
        (initState ([] : List ℚ) ()).optState (c2cfg.trainLoader 1) = .ok rT ∧
      c2st1.losses_train = (initState ([] : List ℚ) ()).losses_train ++
        [(batchMeanLosses true c2cfg.forward c2cfg.criterion c2cfg.opt
            (initState ([] : List ℚ) ()).params (initState ([] : List ℚ) ()).optState
            (c2cfg.trainLoader 1)).sum / c2cfg.trainSize] ∧
      c2st1.losses_val = (initState ([] : List ℚ) ()).losses_val ++
        [(batchMeanLosses false c2cfg.forward c2cfg.criterion c2cfg.opt rT.params rT.optState
            (c2cfg.valLoader 1)).sum / c2cfg.valSize] :=
  c2_epoch_loss_unweighted c2cfg 1 (initState [] ()) c2st1 rfl

/-! ## Claim C3: final checkpoint is persisted BEFORE the best-weights restore -/

theorem stateAfter_zero {σ ι : Type} (cfg : Cfg ι σ) (st0 : RunState σ) :
    stateAfter cfg st0 0 = .ok st0 := rfl

theorem stateAfter_two {σ ι : Type} (cfg : Cfg ι σ) (st0 : RunState σ) :
    stateAfter cfg st0 2 =
      match epochStep cfg 1 st0 with
      | .error e => .error e
      | .ok st => epochStep cfg 2 st := rfl

def c3forward : List ℚ → ℚ → ℚ := fun p x => p.headD 0 * x

def c3opt : Optimizer Unit ℚ := ⟨[0], fun s _ _ => (s, fun _ x => x + 1)⟩

/-- Configuration for the C3 counterexample: two epochs; each train step adds 1
to the single parameter; the val labels equal the epoch-1 predictions, so epoch
1 attains val R2 = 1 and epoch 2 only 0: the best epoch is epoch 1, while the
final epoch leaves the parameter at 3. -/
def c3cfg : Cfg ℚ Unit :=
  { forward := c3forward, criterion := c6criterion, opt := c3opt,
    trainLoader := fun _ => [⟨[1, 1], [1, 1]⟩], valLoader := fun _ => [⟨[1, 1], [2, 2]⟩],
    trainSize := 2, valSize := 2, num_epochs := 2, verbose := false, log_epoch_interval := 1 }

def c3s1 : RunState Unit :=
  ⟨[2], (), [2], some 1, [2, 2], [2, 2], [0], [0], [1], [1], []⟩

def c3s2 : RunState Unit :=
  ⟨[3], (), [2], some 1, [2, 2], [2, 2], [0, 0], [0, 0], [1, 0], [1, 0], []⟩

theorem c3_epoch1 : epochStep c3cfg 1 (initState [1] ()) = .ok c3s1 := by
  norm_num [epochStep, runPhase, runBatches, listIAdd, squeezeTolist, optStep, updateAt,
    maybeLog, saveLogs, bestUpdate, trainPhaseUpdate, valPhaseUpdate, initState, c3cfg,
    c3forward, c3opt, c6criterion, c3s1, r2_score]

theorem c3_epoch2 : epochStep c3cfg 2 c3s1 = .ok c3s2 := by
  norm_num [epochStep, runPhase, runBatches, listIAdd, squeezeTolist, optStep, updateAt,
    maybeLog, saveLogs, bestUpdate, trainPhaseUpdate, valPhaseUpdate, c3cfg,
    c3forward, c3opt, c6criterion, c3s1, c3s2, r2_score]

theorem c3_run : stateAfter c3cfg (initState [1] ()) 2 = .ok c3s2 := by
  rw [stateAfter_two, c3_epoch1]
  exact c3_epoch2

def c3fin : RunState Unit :=
  ⟨[2], (), [2], some 1, [2, 2], [2, 2], [0, 0], [0, 0], [1, 0], [1, 0],
    [⟨none, [2, 2], [2, 2], [0, 0], [0, 0], [1, 0], [1, 0], [3]⟩]⟩

theorem c3_train_model : train_model c3cfg [1] () = .ok c3fin := by
  unfold train_model
  have hn : c3cfg.num_epochs = 2 := rfl
  rw [hn, c3_run]
  rfl

/-- C3 counterexample: in the concrete two-epoch run, the final unconditional
checkpoint (the last persisted log entry) stores the parameters of the FINAL epoch
[3], not the best-epoch parameters [2]; only afterwards are the best parameters
restored into the returned model.  This refutes the claim that the final
parameters of the checkpoint are the best-epoch parameters. -/
theorem c3_counterexample :
    (train_model c3cfg [1] ()).map
        (fun st => ((st.logs.getLast?).map LogEntry.saved_model, st.params, st.best_model_wts)) =
      .ok (some [3], [2], [2]) ∧
    ([3] : List ℚ) ≠ [2] := by
  constructor
  · rw [c3_train_model]
    rfl
  · intro hEq
    have h3 : (3 : ℚ) = 2 := by injection hEq
    norm_num at h3

/-- C3 (amended): after the last epoch, `train_model` FIRST persists the final
checkpoint - whose saved model parameters are those of the final epoch -
and only THEN restores the best-snapshotted parameters into the model; the
returned model carries the restored best parameters. -/
theorem c3_checkpoint_then_restore {σ ι : Type} (cfg : Cfg ι σ) (p0 : List ℚ) (s0 : σ)
    (stN st : RunState σ)
    (hN : stateAfter cfg (initState p0 s0) cfg.num_epochs = .ok stN)
    (h : train_model cfg p0 s0 = .ok st) :
    st.logs.getLast? = some ⟨none, stN.best_y_pred, stN.best_y_true, stN.losses_train,
      stN.losses_val, stN.r2s_train, stN.r2s_val, stN.params⟩ ∧
    st.params = stN.best_model_wts := by
  unfold train_model at h
  rw [hN] at h
  dsimp only at h
  injection h with h2
  subst h2
  constructor
  · show (saveLogs stN none).logs.getLast? = _
    unfold saveLogs
    dsimp only
    rw [List.getLast?_concat]
  · rfl

/-- C3 witness: the amended statement instantiated on the concrete two-epoch
run (final checkpoint holds [3], returned model holds the best parameters [2]). -/
theorem c3_witness :
    c3fin.logs.getLast? = some ⟨none, c3s2.best_y_pred, c3s2.best_y_true, c3s2.losses_train,
      c3s2.losses_val, c3s2.r2s_train, c3s2.r2s_val, c3s2.params⟩ ∧
    c3fin.params = c3s2.best_model_wts :=
  c3_checkpoint_then_restore c3cfg [1] () c3s2 c3fin c3_run c3_train_model

/-! ## Claim C7: fine-tune disabled trains only the replaced head -/

theorem updateAt_take (idxs : List Nat) (f : Nat → ℚ → ℚ) :
    ∀ (xs : List ℚ) (j n : Nat), (∀ m, m < n → (j + m) ∉ idxs) →
      (updateAt idxs f j xs).take n = xs.take n := by
  intro xs
  induction xs with
  | nil => intro j n _; rfl
  | cons x xs ih =>
    intro j n h
    cases n with
    | zero => rfl
    | succ n =>
      simp only [updateAt, List.take_succ_cons]
      have hj : j ∉ idxs := by
        have := h 0 (Nat.succ_pos n)
        simpa using this
      rw [if_neg hj, ih (j + 1) n ?_]
      intro m hm
      have h2 := h (m + 1) (by omega)
      rw [show j + (m + 1) = j + 1 + m by omega] at h2
      exact h2

theorem optStep_take {σ ι : Type} (opt : Optimizer σ ι) (s : σ) (params : List ℚ)
    (b : Batch ι) (n : Nat) (h : ∀ i ∈ opt.paramIdx, n ≤ i) :
    (optStep opt s params b).2.take n = params.take n := by
  unfold optStep
  dsimp only
  apply updateAt_take
  intro m hm hmem
  have := h _ hmem
  omega

theorem runBatches_take {σ ι : Type} (isTrain : Bool) (f : List ℚ → ι → ℚ)
    (c : List ℚ → List ℚ → ℚ) (opt : Optimizer σ ι) (n : Nat)
    (h : ∀ i ∈ opt.paramIdx, n ≤ i) :
    ∀ (batches : List (Batch ι)) (params : List ℚ) (s : σ) (yt yp : List ℚ) (rl : ℚ)
      (r : PhaseResult σ),
      runBatches isTrain f c opt params s yt yp rl batches = .ok r →
      r.params.take n = params.take n := by
  intro batches
  induction batches with
  | nil =>
    intro params s yt yp rl r hr
    simp only [runBatches] at hr
    cases hr
    rfl
  | cons b rest ih =>
    intro params s yt yp rl r hr
    simp only [runBatches] at hr
    cases hadd : listIAdd yp (squeezeTolist (b.inputs.map (f params))) with
    | error e => rw [hadd] at hr; simp at hr
    | ok y2 =>
      rw [hadd] at hr
      cases isTrain with
      | false =>
        simp only [Bool.false_eq_true, if_false] at hr
        exact ih _ _ _ _ _ _ hr
      | true =>
        simp only [if_true] at hr
        have h2 := ih _ _ _ _ _ _ hr
        rw [h2]
        exact optStep_take opt s params b n h

theorem epochStep_take {σ ι : Type} (cfg : Cfg ι σ) (n : Nat)
    (hIdx : ∀ i ∈ cfg.opt.paramIdx, n ≤ i) (epoch : Nat) (st st' : RunState σ)
    (hstep : epochStep cfg epoch st = .ok st') :
    st'.params.take n = st.params.take n ∧
    (st'.best_model_wts.take n = st.params.take n ∨
      st'.best_model_wts = st.best_model_wts) := by
  obtain ⟨rT, rV, hT, hV, hp, _, _, _, _, _, hbest⟩ := epochStep_spec cfg epoch st st' hstep
  have h1 : rT.params.take n = st.params.take n :=
    runBatches_take true cfg.forward cfg.criterion cfg.opt n hIdx
      (cfg.trainLoader epoch) st.params st.optState [] [] 0 rT hT
  have h2 : rV.params = rT.params :=
    (runBatches_val_preserves cfg.forward cfg.criterion cfg.opt
      (cfg.valLoader epoch) rT.params rT.optState [] [] 0 rV hV).1
  refine ⟨by rw [hp, h2, h1], ?_⟩
  rcases hbest with ⟨_, _, hw, _, _⟩ | ⟨_, _, hw, _, _⟩
  · exact Or.inr hw
  · exact Or.inl (by rw [hw, h2, h1])

theorem stateAfter_take {σ ι : Type} (cfg : Cfg ι σ) (n : Nat)
    (hIdx : ∀ i ∈ cfg.opt.paramIdx, n ≤ i) (p0 : List ℚ) (s0 : σ) :
    ∀ (k : Nat) (st : RunState σ), stateAfter cfg (initState p0 s0) k = .ok st →
      st.params.take n = p0.take n ∧ st.best_model_wts.take n = p0.take n := by
  intro k
  induction k with
  | zero =>
    intro st h
    injection h with h2
    rw [← h2]
    exact ⟨rfl, rfl⟩
  | succ k ih =>
    intro st h
    obtain ⟨stk, hk, hstep⟩ := stateAfter_succ_ok cfg (initState p0 s0) k st h
    obtain ⟨hp, hw⟩ := ih stk hk
    obtain ⟨hp', hw'⟩ := epochStep_take cfg n hIdx (k + 1) stk st hstep
    refine ⟨by rw [hp', hp], ?_⟩
    rcases hw' with h1 | h1
    · rw [h1, hp]
    · rw [h1, hw]

/-- C7: with the fine-tune switch disabled, the parameter index set of the optimizer
is exactly the replaced regression head (the fc block appended after the
backbone), and after any completed training run the backbone of the returned model:
parameters are unchanged from the pretrained backbone values. -/
theorem c7_fine_tune_disabled_frame {σ ι : Type} (m : MainCfg) (hft : m.fine_tune = false)
    (cfg : Cfg ι σ) (hidx : cfg.opt.paramIdx = mainParamIdx m) (s0 : σ) (st : RunState σ)
    (h : train_model cfg (mainParams m) s0 = .ok st) :
    (∀ i, i ∈ cfg.opt.paramIdx ↔
      (m.backbone_init.length ≤ i ∧ i < m.backbone_init.length + m.fc_init.length)) ∧
    st.params.take m.backbone_init.length = m.backbone_init := by
  have hmem : ∀ i, i ∈ cfg.opt.paramIdx ↔
      (m.backbone_init.length ≤ i ∧ i < m.backbone_init.length + m.fc_init.length) := by
    intro i
    rw [hidx]
    unfold mainParamIdx
    rw [hft]
    simp only [Bool.false_eq_true, if_false, List.mem_map, List.mem_range]
    constructor
    · rintro ⟨a, ha, rfl⟩
      omega
    · rintro ⟨h1, h2⟩
      exact ⟨i - m.backbone_init.length, by omega, by omega⟩
  refine ⟨hmem, ?_⟩
  have hIdx2 : ∀ i ∈ cfg.opt.paramIdx, m.backbone_init.length ≤ i := by
    intro i hi
    exact ((hmem i).mp hi).1
  unfold train_model at h
  cases hN : stateAfter cfg (initState (mainParams m) s0) cfg.num_epochs with
  | error e => rw [hN] at h; simp at h
  | ok stN =>
    rw [hN] at h
    dsimp only at h
    injection h with h2
    subst h2
    have hback := (stateAfter_take cfg m.backbone_init.length hIdx2 (mainParams m) s0
      cfg.num_epochs stN hN).2
    show stN.best_model_wts.take m.backbone_init.length = m.backbone_init
    rw [hback]
    unfold mainParams
    exact List.take_left _ _

def c7m : MainCfg := ⟨false, [1, 2], [3]⟩

def c7opt : Optimizer Unit ℚ := ⟨[2], fun s _ _ => (s, fun _ x => x + 1)⟩

def c7cfg : Cfg ℚ Unit :=
  { forward := c6forward, criterion := c6criterion, opt := c7opt,
    trainLoader := fun _ => c6batches, valLoader := fun _ => c6batches,
    trainSize := 2, valSize := 2, num_epochs := 1, verbose := false, log_epoch_interval := 1 }

def c7st : RunState Unit :=
  (train_model c7cfg (mainParams c7m) ()).toOption.getD (initState [] ())

/-- C7 witness: a concrete completed run with fine-tune disabled, backbone
[1, 2], head [3]: the optimizer set is exactly index 2 and the returned model
still starts with [1, 2]. -/
theorem c7_witness :
    c7m.fine_tune = false ∧
    train_model c7cfg (mainParams c7m) () = .ok c7st ∧
    (∀ i, i ∈ c7cfg.opt.paramIdx ↔
      (c7m.backbone_init.length ≤ i ∧
        i < c7m.backbone_init.length + c7m.fc_init.length)) ∧
    c7st.params.take c7m.backbone_init.length = c7m.backbone_init := by
  have h := c7_fine_tune_disabled_frame c7m rfl c7cfg rfl () c7st rfl
  exact ⟨rfl, rfl, h.1, h.2⟩

/-! ## CPU-path aliasing model of the best-parameter snapshot (claim C4)

On the CPU path (`use_gpu = torch.cuda.is_available()` is `False`),
`model.state_dict()` returns an ordered dict holding the live parameter tensors
of the model themselves (torch 0.3/0.4 stores `param.data` without copying),
`optimizer.step()` updates those tensors IN PLACE, and `load_state_dict` copies
values into them in place.  The source never calls `copy.deepcopy`, and the
`model.cpu()` / `model.cuda()` round trip of lines 172-176 - which re-creates
the parameter tensors and would so turn the assignment into a genuine copy -
runs only when `use_gpu` is true.  To express the sharing, the live tensor
storages live in a heap; the parameter group the run updates is storage 0 for
the whole run (in-place mutation never reallocates it), `state_dict()` yields a
REFERENCE (the storage id 0), and reading a state dict dereferences the heap.
The per-batch phase work is the value-level `runPhase` (parameter values evolve
identically); the in-place writes of the train phase leave storage 0 holding
the post-phase values.  The periodic `save_logs` only writes files and touches
none of this state, so it is omitted from this state type. -/

/-- Dereference a state-dict reference: the current contents of the referenced
parameter storage. -/
def readTensor (heap : List (List ℚ)) (r : Nat) : List ℚ := heap.getD r []

/-- CPU-path run state: the heap of live tensor storages plus the best
bookkeeping, with `best_model_wts` as the reference `model.state_dict()`
returned rather than a value copy. -/
structure CPUState (σ : Type) where
  heap : List (List ℚ)
  optState : σ
  best_ref : Nat
  best_r2 : Option ℚ
  best_y_pred : List ℚ
  best_y_true : List ℚ
  losses_train : List ℚ
  losses_val : List ℚ
  r2s_train : List ℚ
  r2s_val : List ℚ
deriving DecidableEq

/-- Initial CPU state: line 85 `best_model_wts = model.state_dict()` already
stores a reference to the live parameters (storage 0). -/
def initCPU {σ : Type} (p : List ℚ) (s : σ) : CPUState σ :=
  ⟨[p], s, 0, none, [], [], [], [], [], []⟩

/-- One epoch of `train_model` on the CPU path: identical to `epochStep` except
that the best-checkpoint snapshot stores the reference returned by
`model.state_dict()` (id 0) instead of a copy of the parameter values. -/
def epochStepCPU {σ ι : Type} (cfg : Cfg ι σ) (epoch : Nat) (st : CPUState σ) :
    Except String (CPUState σ) :=
  match runPhase true cfg.forward cfg.criterion cfg.opt (readTensor st.heap 0) st.optState
      (cfg.trainLoader epoch) with
  | .error e => .error e
  | .ok rT =>
    let heap1 := st.heap.set 0 rT.params
    match runPhase false cfg.forward cfg.criterion cfg.opt (readTensor heap1 0) rT.optState
        (cfg.valLoader epoch) with
    | .error e => .error e
    | .ok rV =>
      let epoch_r2 : ℚ := r2_score rV.y_true rV.y_pred
      let st2 : CPUState σ :=
        { st with
          heap := heap1
          optState := rV.optState
          losses_train := st.losses_train ++ [rT.running_loss / cfg.trainSize]
          losses_val := st.losses_val ++ [rV.running_loss / cfg.valSize]
          r2s_train := st.r2s_train ++ [r2_score rT.y_true rT.y_pred]
          r2s_val := st.r2s_val ++ [epoch_r2] }
      .ok (match st2.best_r2 with
        | none =>
          { st2 with
            best_r2 := some epoch_r2
            best_y_pred := rV.y_pred
            best_y_true := rV.y_true
            best_ref := 0 }
        | some b =>
          if b < epoch_r2 then
            { st2 with
              best_r2 := some epoch_r2
              best_y_pred := rV.y_pred
              best_y_true := rV.y_true
              best_ref := 0 }
          else st2)

/-- CPU-path state after the first `k` epochs. -/
def stateAfterCPU {σ ι : Type} (cfg : Cfg ι σ) (st0 : CPUState σ) :
    Nat → Except String (CPUState σ)
  | 0 => .ok st0
  | k + 1 =>
    match stateAfterCPU cfg st0 k with
    | .error e => .error e
    | .ok st => epochStepCPU cfg (k + 1) st

theorem epochStepCPU_best_ref_zero {σ ι : Type} (cfg : Cfg ι σ) (epoch : Nat)
    (st st' : CPUState σ) (hz : st.best_ref = 0)
    (h : epochStepCPU cfg epoch st = .ok st') : st'.best_ref = 0 := by
  unfold epochStepCPU at h
  cases hT : runPhase true cfg.forward cfg.criterion cfg.opt (readTensor st.heap 0)
      st.optState (cfg.trainLoader epoch) with
  | error e => rw [hT] at h; simp at h
  | ok rT =>
    rw [hT] at h
    dsimp only at h
    cases hV : runPhase false cfg.forward cfg.criterion cfg.opt
        (readTensor (st.heap.set 0 rT.params) 0) rT.optState (cfg.valLoader epoch) with
    | error e => rw [hV] at h; simp at h
    | ok rV =>
      rw [hV] at h
      dsimp only at h
      injection h with h2
      cases hbr : st.best_r2 with
      | none =>
        rw [hbr] at h2
        rw [← h2]
      | some b =>
        rw [hbr] at h2
        dsimp only at h2
        by_cases hlt : b < r2_score rV.y_true rV.y_pred
        · rw [if_pos hlt] at h2
          rw [← h2]
        · rw [if_neg hlt] at h2
          rw [← h2]
          exact hz

/-- On every CPU run, the stored `best_model_wts` is forever the reference to
the live parameter storage. -/
theorem stateAfterCPU_best_ref_zero {σ ι : Type} (cfg : Cfg ι σ) (p0 : List ℚ) (s0 : σ) :
    ∀ (k : Nat) (st : CPUState σ), stateAfterCPU cfg (initCPU p0 s0) k = .ok st →
      st.best_ref = 0 := by
  intro k
  induction k with
  | zero =>
    intro st h
    injection h with h2
    rw [← h2]
    rfl
  | succ k ih =>
    intro st h
    simp only [stateAfterCPU] at h
    cases hk : stateAfterCPU cfg (initCPU p0 s0) k with
    | error e => rw [hk] at h; simp at h
    | ok stk =>
      rw [hk] at h
      exact epochStepCPU_best_ref_zero cfg (k + 1) stk st (ih stk hk) h

/-- Consequence of the aliasing: at EVERY point of a CPU run the stored
"snapshot" dereferences to the CURRENT model parameters, whatever epoch
produced the current best R2. -/
theorem cpu_snapshot_reads_current_params {σ ι : Type} (cfg : Cfg ι σ) (p0 : List ℚ)
    (s0 : σ) (k : Nat) (st : CPUState σ)
    (h : stateAfterCPU cfg (initCPU p0 s0) k = .ok st) :
    readTensor st.heap st.best_ref = readTensor st.heap 0 := by
  rw [stateAfterCPU_best_ref_zero cfg p0 s0 k st h]

theorem stateAfterCPU_two {σ ι : Type} (cfg : Cfg ι σ) (st0 : CPUState σ) :
    stateAfterCPU cfg st0 2 =
      match epochStepCPU cfg 1 st0 with
      | .error e => .error e
      | .ok st => epochStepCPU cfg 2 st := rfl

def c4s1 : CPUState Unit := ⟨[[2]], (), 0, some 1, [2, 2], [2, 2], [0], [0], [1], [1]⟩

def c4s2 : CPUState Unit :=
  ⟨[[3]], (), 0, some 1, [2, 2], [2, 2], [0, 0], [0, 0], [1, 0], [1, 0]⟩

theorem c4_cpu_epoch1 : epochStepCPU c3cfg 1 (initCPU [1] ()) = .ok c4s1 := by
  norm_num [epochStepCPU, runPhase, runBatches, listIAdd, squeezeTolist, optStep, updateAt,
    initCPU, readTensor, c3cfg, c3forward, c3opt, c6criterion, c4s1, r2_score]

theorem c4_cpu_epoch2 : epochStepCPU c3cfg 2 c4s1 = .ok c4s2 := by
  norm_num [epochStepCPU, runPhase, runBatches, listIAdd, squeezeTolist, optStep, updateAt,
    readTensor, c3cfg, c3forward, c3opt, c6criterion, c4s1, c4s2, r2_score]

theorem c4_cpu_run1 : stateAfterCPU c3cfg (initCPU [1] ()) 1 = .ok c4s1 := c4_cpu_epoch1

theorem c4_cpu_run2 : stateAfterCPU c3cfg (initCPU [1] ()) 2 = .ok c4s2 := by
  rw [stateAfterCPU_two, c4_cpu_epoch1]
  exact c4_cpu_epoch2

/-- C4 (code bug, CPU path): evaluation of the failing input.  Two epochs, one
parameter starting at 1, each train step adds 1 in place; epoch 1 is the best
epoch (val R2 = 1, r2s_val = [1, 0]) and its parameters were [2].  Right after
epoch 1 the stored snapshot indeed reads [2]; after epoch 2 the best R2 still
records epoch 1 (unchanged at 1), but the stored snapshot - a live reference,
since `state_dict()` returned the parameter tensors themselves and nothing was
deep-copied - now reads the final parameters [3].  Training in a later epoch
altered the snapshot taken at the best epoch, contradicting the claimed (and
spec-intended) snapshot integrity. -/
theorem c4_cpu_snapshot_mutated :
    (stateAfterCPU c3cfg (initCPU [1] ()) 1).map
        (fun st => (readTensor st.heap st.best_ref, st.best_r2)) = .ok ([2], some 1) ∧
    (stateAfterCPU c3cfg (initCPU [1] ()) 2).map
        (fun st => (readTensor st.heap st.best_ref, st.best_r2)) = .ok ([3], some 1) ∧
    (stateAfterCPU c3cfg (initCPU [1] ()) 2).map (fun st => st.r2s_val) = .ok [1, 0] ∧
    ([3] : List ℚ) ≠ [2] := by
  refine ⟨?_, ?_, ?_, ?_⟩
  · rw [c4_cpu_run1]; rfl
  · rw [c4_cpu_run2]; rfl
  · rw [c4_cpu_run2]; rfl
  · intro hEq
    have h3 : (3 : ℚ) = 2 := by injection hEq
    norm_num at h3
